import Mathlib

/-!
Shallow embedding of `src/lib.rs` of the `to-wit` FFI introspection layer.

Modelling conventions, used throughout:

* Raw pointers that may be null are modelled as `Option`; a `none` argument is
  the null pointer.  An output pointer is modelled by a `Bool` flag `resNull`
  (whether the pointer is null) together with, where a claim needs it, the
  value previously stored behind the pointer ("the slot").
* Rust `CString::new` fails exactly when the byte string contains a NUL byte;
  over UTF-8 text this is exactly when the character U+0000 occurs.
* The external parser's `Type::Id(id)` is an index into the interface's type
  arena `iface.types`, and the code always immediately reads
  `iface.types[*id].kind`.  Since a successfully parsed arena is finite and
  acyclic, we embed the occurrence `Type::Id(id)` as `Ty.id k` where `k` is
  the `TypeDefKind` stored at that arena slot, i.e. the arena lookup is
  performed in the embedding.  Payloads of kinds whose contents the embedded
  code never inspects (`Flags`, `Tuple`, `Enum`, `Union`, `Option`) are
  dropped; `other` stands for the parser kinds that fall into the `_` arms of
  the source (`Future`, `Stream`, `Type` aliases).
* The `Rc<Interface>` and `Rc<SizeAlign>` fields that every descriptor clones
  are shared handles to the document arena and the black-box ABI alignment
  table; the arena is already incorporated into `Ty`, and the alignment table
  is consumed only by the size/align accessors, which no claim touches, so
  these two fields are not carried in the embedded structures.
* A fallible internal `_wit_*` function returns an `Outcome`: `ok` with the
  value it writes through its output pointer, `err msg` for an
  `Err(anyhow!(msg))` return, or `panic msg` for a Rust panic (e.g. vector
  indexing out of bounds).  The boundary macro `ffi_return` is embedded with
  an explicit flag for the `catch_panics` cargo feature.
-/

namespace ToWit

/- `parser::abi` namespace: black-box ABI calculator types used by the code. -/
namespace abi

/-- `abi::WasmType`. -/
inductive WasmType where
  | I32
  | I64
  | F32
  | F64
deriving DecidableEq, Repr

/-- `abi::WasmSignature` (fields read by `lib.rs`). -/
structure WasmSignature where
  params : List WasmType
  results : List WasmType
  indirect_params : Bool
  retptr : Bool
deriving DecidableEq, Repr

end abi

/-- `WASMType`, the `#[repr(C)]` word-kind enum exposed across the boundary. -/
inductive WASMType where
  | I32
  | I64
  | F32
  | F64
deriving DecidableEq, Repr

/-- `impl From<abi::WasmType> for WASMType`. -/
def wasmTypeFrom : abi.WasmType → WASMType
  | abi.WasmType.I32 => WASMType.I32
  | abi.WasmType.I64 => WASMType.I64
  | abi.WasmType.F32 => WASMType.F32
  | abi.WasmType.F64 => WASMType.F64

/-- `WITSigPart`, the `#[repr(C)]` signature-part selector. -/
inductive WITSigPart where
  | Params
  | Results
deriving DecidableEq, Repr

/- The parser's AST: `Type`, `TypeDefKind`, `Field`, `Case` (see the
modelling conventions above for how `Type::Id` is embedded). -/
mutual

inductive Ty where
  | unit
  | bool
  | u8
  | u16
  | u32
  | u64
  | s8
  | s16
  | s32
  | s64
  | float32
  | float64
  | char
  | string
  | handle
  | id (kind : TypeDefKind)

inductive TypeDefKind where
  | record (fields : List Field)
  | list (elem : Ty)
  | variant (cases : List Case)
  | expected (okTy errTy : Ty)
  | tuple
  | flags
  | enum
  | union
  | option
  | other

inductive Field where
  | mk (name : String) (ty : Ty)

inductive Case where
  | mk (name : String) (ty : Ty)

end

/-- `Field.name` projection. -/
def Field.name : Field → String
  | .mk n _ => n

/-- `Field.ty` projection. -/
def Field.ty : Field → Ty
  | .mk _ t => t

/-- `Case.name` projection. -/
def Case.name : Case → String
  | .mk n _ => n

/-- `Case.ty` projection. -/
def Case.ty : Case → Ty
  | .mk _ t => t

/-- `WITType`, the `#[repr(C)]` closed type-tag enumeration. -/
inductive WITType where
  | Unit
  | Bool
  | U8
  | U16
  | U32
  | U64
  | S8
  | S16
  | S32
  | S64
  | Float32
  | Float64
  | Char
  | String
  | Flags
  | Record
  | List
  | Variant
  | Tuple
  | Enum
  | Expected
  | Option
  | Union
  | Unknown
deriving DecidableEq, Repr

/-- Whether a string contains the NUL character (as a byte string: whether it
contains a NUL byte). -/
def hasNul (s : String) : Bool :=
  s.data.contains (Char.ofNat 0)

/-- `CString::new`: fails exactly on strings containing a NUL byte. -/
def cstring_new (s : String) : Except Unit String :=
  if hasNul s then .error () else .ok s

/-- `WITError`: a boundary-safe C string message. -/
structure WITError where
  c_msg : String
deriving DecidableEq, Repr

/-- `WITSession`: the per-session error slot. -/
structure WITSession where
  error : Option WITError
deriving DecidableEq, Repr

/-- `wit_error_get`: null session gives null; otherwise the pending message
pointer, or null when none is pending. -/
def wit_error_get (s : Option WITSession) : Option String :=
  match s with
  | Option.none => Option.none
  | Option.some s =>
    match s.error with
    | Option.some e => Option.some e.c_msg
    | Option.none => Option.none

/-- `wit_error_clear`: clears the slot of a non-null session (returns the
updated session state; a null session is untouched). -/
def wit_error_clear (s : Option WITSession) : Option WITSession :=
  match s with
  | Option.none => Option.none
  | Option.some _ => Option.some { error := Option.none }

/-- `error_set`: builds a `CString` from the message; on success replaces the
slot and returns `true`, on a NUL-byte failure leaves the session unchanged
and returns `false`. -/
def error_set (s : WITSession) (err : String) : WITSession × Bool :=
  match cstring_new err with
  | .ok msg => ({ error := Option.some { c_msg := msg } }, true)
  | .error _ => (s, false)

/-- `check`: on `Err`, sets the error slot when the session is non-null and
returns `false`; on `Ok` returns `true` leaving the session untouched. -/
def check (s : Option WITSession) (r : Except String Unit) : Option WITSession × Bool :=
  match r with
  | .error err =>
    (match s with
     | Option.some sess => Option.some (error_set sess err).1
     | Option.none => Option.none,
     false)
  | .ok _ => (s, true)

/-- Result of an internal `_wit_*` call: the value it would write through its
output pointer, an `anyhow` error, or a Rust panic. -/
inductive Outcome (α : Type) where
  | ok (v : α)
  | err (msg : String)
  | panic (msg : String)
deriving DecidableEq, Repr

/-- Forget the written value, keeping the error/panic structure (what the
`ffi_return` wrapper observes of a `Result<()>` plus unwinding). -/
def Outcome.toUnit {α : Type} : Outcome α → Outcome Unit
  | .ok _ => .ok ()
  | .err m => .err m
  | .panic m => .panic m

/-- What a foreign caller observes of one boundary call: a boolean return, a
panic unwinding across the FFI boundary, or undefined behaviour (the
`catch_panics` handler dereferences the session pointer without a null
check). -/
inductive FFIBoundary where
  | returns (b : Bool)
  | unwinds (msg : String)
  | ub
deriving DecidableEq, Repr

/-- The `ffi_return!` macro: with the `catch_panics` feature, panics are
caught and converted via `error_set` on the (unchecked!) session pointer;
without it, the call is just `check` and a panic unwinds across the
boundary. -/
def ffi_return (catchPanics : Bool) (s : Option WITSession) (r : Outcome Unit) :
    Option WITSession × FFIBoundary :=
  if catchPanics then
    match r with
    | .panic m =>
      match s with
      | Option.some sess =>
        (Option.some (error_set sess ("Caught Rust panic: " ++ m)).1, .returns false)
      | Option.none => (Option.none, .ub)
    | .ok v =>
      let p := check s (.ok v)
      (p.1, .returns p.2)
    | .err m =>
      let p := check s (.error m)
      (p.1, .returns p.2)
  else
    match r with
    | .panic m => (s, .unwinds m)
    | .ok v =>
      let p := check s (.ok v)
      (p.1, .returns p.2)
    | .err m =>
      let p := check s (.error m)
      (p.1, .returns p.2)

/-- `WITTypeDef`: one type occurrence with its resolved name and the up to
two cached subtype descriptors (recursive, since the code boxes nested
descriptors). -/
inductive WITTypeDef where
  | mk (name : String) (ty : Ty) (subty1 subty2 : Option WITTypeDef)

/-- `WITTypeDef.name` projection. -/
def WITTypeDef.name : WITTypeDef → String
  | .mk n _ _ _ => n

/-- `WITTypeDef.ty` projection. -/
def WITTypeDef.ty : WITTypeDef → Ty
  | .mk _ t _ _ => t

/-- `WITTypeDef.subty1` projection. -/
def WITTypeDef.subty1 : WITTypeDef → Option WITTypeDef
  | .mk _ _ s _ => s

/-- `WITTypeDef.subty2` projection. -/
def WITTypeDef.subty2 : WITTypeDef → Option WITTypeDef
  | .mk _ _ _ s => s

/-- `subtypedef_get_maybe`: which = 1 resolves a list's element type or an
expected's ok type, which = 2 resolves an expected's err type; anything else
yields `None`.  Two simplifications against the Rust signature: the function
takes `Option<&Type>` and returns `Ok(None)` on `None`, but every call site
(including its own recursive calls) passes `Some(...)`, so the embedding
takes the unwrapped type; and the `Result` wrapper is omitted because every
`CString::new` the function performs is on the constant strings "", "ok",
"err", so the error channel is never used (the source itself `unwrap`s two
of them). -/
def subtypedef_get_maybe : Nat → Ty → Option WITTypeDef
  | which, Ty.id kind =>
    (match which, kind with
     | 1, TypeDefKind.list subty =>
       Option.some (WITTypeDef.mk "" subty
         (subtypedef_get_maybe 1 subty) (subtypedef_get_maybe 2 subty))
     | 1, TypeDefKind.expected okTy _ =>
       Option.some (WITTypeDef.mk "ok" okTy
         (subtypedef_get_maybe 1 okTy) (subtypedef_get_maybe 2 okTy))
     | 2, TypeDefKind.expected _ errTy =>
       Option.some (WITTypeDef.mk "err" errTy
         (subtypedef_get_maybe 1 errTy) (subtypedef_get_maybe 2 errTy))
     | _, _ => Option.none)
  | _, _ => Option.none
termination_by structural _ t => t

/-- The `WITTypeDef` construction repeated at every call site: a name, a type
occurrence, and the two eagerly resolved subtype slots. -/
def mkWITTypeDef (name : String) (ty : Ty) : WITTypeDef :=
  WITTypeDef.mk name ty
    (subtypedef_get_maybe 1 ty)
    (subtypedef_get_maybe 2 ty)

/-- The same construction when the name goes through `CString::new(...)?`
(parameter, field and case names): fails on a NUL byte in the name. -/
def mkWITTypeDefChecked (name : String) (ty : Ty) : Except String WITTypeDef :=
  match cstring_new name with
  | .error _ => .error "nul byte found in provided data"
  | .ok nm => .ok (mkWITTypeDef nm ty)

/-- The type-tag mapping of `_wit_typedef_type_get` (`Handle` and the parser
kinds in the `_` arm map to `Unknown`). -/
def tyToWITType : Ty → WITType
  | Ty.unit => WITType.Unit
  | Ty.bool => WITType.Bool
  | Ty.u8 => WITType.U8
  | Ty.u16 => WITType.U16
  | Ty.u32 => WITType.U32
  | Ty.u64 => WITType.U64
  | Ty.s8 => WITType.S8
  | Ty.s16 => WITType.S16
  | Ty.s32 => WITType.S32
  | Ty.s64 => WITType.S64
  | Ty.float32 => WITType.Float32
  | Ty.float64 => WITType.Float64
  | Ty.char => WITType.Char
  | Ty.string => WITType.String
  | Ty.handle => WITType.Unknown
  | Ty.id kind =>
    match kind with
    | TypeDefKind.flags => WITType.Flags
    | TypeDefKind.expected _ _ => WITType.Expected
    | TypeDefKind.option => WITType.Option
    | TypeDefKind.union => WITType.Union
    | TypeDefKind.enum => WITType.Enum
    | TypeDefKind.tuple => WITType.Tuple
    | TypeDefKind.record _ => WITType.Record
    | TypeDefKind.list _ => WITType.List
    | TypeDefKind.variant _ => WITType.Variant
    | TypeDefKind.other => WITType.Unknown

/-- `_wit_typedef_type_get`, with the output slot threaded explicitly: the
slot is written only by the final `*res = ty` of the success path. -/
def _wit_typedef_type_get (td : Option WITTypeDef) (resNull : Bool) (slot : WITType) :
    Outcome Unit × WITType :=
  match td with
  | Option.none => (.err "Invalid argument", slot)
  | Option.some td =>
    if resNull then (.err "Invalid argument", slot)
    else
      let ty := tyToWITType td.ty
      if ty = WITType.Unknown then (.err "Unsupported type", slot)
      else (.ok (), ty)

/-- `parser::Function` (the fields `lib.rs` reads: name, params, result). -/
structure Function where
  name : String
  params : List (String × Ty)
  result : Ty

/-- `parser::Interface` (the function list; the type arena is already folded
into `Ty`). -/
structure Interface where
  functions : List Function

/-- `WITSignature`. -/
structure WITSignature where
  sig : abi.WasmSignature
deriving DecidableEq, Repr

/-- `WITFunction`. -/
structure WITFunction where
  iface : Interface
  name : String
  sig : WITSignature
  index : Nat
  res : WITTypeDef

/-- `HashMap::insert` on an association list: replaces the binding of an
existing key, otherwise appends. -/
def hashInsert (m : List (String × WITFunction)) (k : String) (v : WITFunction) :
    List (String × WITFunction) :=
  match m with
  | [] => [(k, v)]
  | (k', v') :: rest =>
    if k' = k then (k, v) :: rest else (k', v') :: hashInsert rest k v

/-- `HashMap::get` on an association list. -/
def hashGet (m : List (String × WITFunction)) (k : String) : Option WITFunction :=
  match m with
  | [] => Option.none
  | (k', v') :: rest => if k' = k then Option.some v' else hashGet rest k

/-- The `WITFunction` built for function number `i` in `_wit_parse`'s loop:
`CString::new(name)?`, the black-box `wasm_signature` (`sigOf`), and the
eagerly built result descriptor with its subtypes. -/
def mkWITFunction (sigOf : Function → abi.WasmSignature) (iface : Interface)
    (i : Nat) (f : Function) : Except String WITFunction :=
  match cstring_new f.name with
  | .error _ => .error "nul byte found in provided data"
  | .ok nm =>
    .ok { iface := iface
          name := nm
          sig := { sig := sigOf f }
          index := i
          res := mkWITTypeDef "" f.result }

/-- The `for i in 0..funcs.len()` loop of `_wit_parse`: builds each
descriptor and `insert`s it into the name map, propagating any error. -/
def buildFuncs (sigOf : Function → abi.WasmSignature) (iface : Interface) :
    Nat → List Function → List (String × WITFunction) →
    Except String (List (String × WITFunction))
  | _, [], m => .ok m
  | i, f :: rest, m =>
    match mkWITFunction sigOf iface i f with
    | .error e => .error e
    | .ok wf => buildFuncs sigOf iface (i + 1) rest (hashInsert m f.name wf)

/-- `WIT`: the document handle (function-name map plus the parsed interface;
the alignment table is black-box and unread by the embedded operations). -/
structure WIT where
  iface : Interface
  funcs : List (String × WITFunction)

/-- `_wit_parse`, with the output slot threaded.  `parseFn` is the black-box
external parser `Interface::parse` (composed with the UTF-8 decoding step:
`content = none` is a null pointer, and a decoding failure surfaces as a
`parseFn` error); `sigOf` is the black-box ABI signature calculator. -/
def _wit_parse (parseFn : String → Except String Interface)
    (sigOf : Function → abi.WasmSignature)
    (content : Option String) (resNull : Bool) (slot : Option WIT) :
    Outcome Unit × Option WIT :=
  match content with
  | Option.none => (.err "Invalid arguments", slot)
  | Option.some text =>
    if resNull then (.err "Invalid arguments", slot)
    else
      match parseFn text with
      | .error e => (.err e, slot)
      | .ok iface =>
        match buildFuncs sigOf iface 0 iface.functions [] with
        | .error e => (.err e, slot)
        | .ok funcs => (.ok (), Option.some { iface := iface, funcs := funcs })

/-- `_wit_func_count_get`. -/
def _wit_func_count_get (wit : Option WIT) (resNull : Bool) : Outcome Nat :=
  match wit with
  | Option.none => .err "Invalid arguments"
  | Option.some wit =>
    if resNull then .err "Invalid arguments"
    else .ok wit.iface.functions.length

/-- `_wit_func_get_by_index`: note that `wit.iface.functions[index]` is a raw
vector index, which panics when `index` is out of range; the NotFound error
is produced only for an in-range index whose name misses the map. -/
def _wit_func_get_by_index (wit : Option WIT) (index : Nat) (resNull : Bool) :
    Outcome WITFunction :=
  match wit with
  | Option.none => .err "Invalid arguments"
  | Option.some wit =>
    if resNull then .err "Invalid arguments"
    else if h : index < wit.iface.functions.length then
      let name := (wit.iface.functions.get ⟨index, h⟩).name
      match hashGet wit.funcs name with
      | Option.some func => .ok func
      | Option.none => .err ("Function `" ++ name ++ "` not found")
    else .panic "index out of bounds"

/-- `WITTypeDefIter`: the remaining source elements and the materialized
current item. -/
structure WITTypeDefIter where
  inner_iter : List (String × Ty)
  item : Option WITTypeDef

/-- `wit_typedef_iter_off`: a null iterator is treated as exhausted. -/
def wit_typedef_iter_off (iter : Option WITTypeDefIter) : Bool :=
  match iter with
  | Option.none => true
  | Option.some it => it.item.isNone

/-- `_wit_func_param_walk`: builds a cursor over
`func.iface.functions[func.index].params` positioned at the first parameter
(or exhausted when there are none).  The vector index panics if the stored
index is out of range. -/
def _wit_func_param_walk (func : Option WITFunction) (resNull : Bool) :
    Outcome WITTypeDefIter :=
  match func with
  | Option.none => .err "Invalid argument"
  | Option.some func =>
    if resNull then .err "Invalid argument"
    else if h : func.index < func.iface.functions.length then
      match (func.iface.functions.get ⟨func.index, h⟩).params with
      | [] => .ok { inner_iter := [], item := Option.none }
      | n :: rest =>
        match mkWITTypeDefChecked n.1 n.2 with
        | .error e => .err e
        | .ok item => .ok { inner_iter := rest, item := Option.some item }
    else .panic "index out of bounds"

/-- `_wit_typedef_iter_next`, threading the iterator state: fails when
already exhausted; note the failure of `CString::new` on an element name
leaves the item unchanged though the inner iterator has advanced. -/
def _wit_typedef_iter_next (iter : Option WITTypeDefIter) :
    Outcome Unit × Option WITTypeDefIter :=
  match iter with
  | Option.none => (.err "Invalid argument", Option.none)
  | Option.some it =>
    if wit_typedef_iter_off (Option.some it) then
      (.err "Iterator out of bounds!", Option.some it)
    else
      match it.inner_iter with
      | [] => (.ok (), Option.some { inner_iter := [], item := Option.none })
      | n :: rest =>
        match mkWITTypeDefChecked n.1 n.2 with
        | .error e => (.err e, Option.some { inner_iter := rest, item := it.item })
        | .ok item => (.ok (), Option.some { inner_iter := rest, item := Option.some item })

/-- `WITFieldIter`. -/
structure WITFieldIter where
  inner_iter : List Field
  item : Option WITTypeDef

/-- `_wit_record_field_walk`: succeeds only on a `Record` type id; a type id
of any other kind yields the type-mismatch message, and a type that is not a
type id at all falls into the outer `else` with an out-of-bounds message. -/
def _wit_record_field_walk (td : Option WITTypeDef) (resNull : Bool) :
    Outcome WITFieldIter :=
  match td with
  | Option.none => .err "Invalid argument"
  | Option.some td =>
    if resNull then .err "Invalid argument"
    else
      match td.ty with
      | Ty.id (TypeDefKind.record fields) =>
        match fields with
        | [] => .ok { inner_iter := [], item := Option.none }
        | f :: rest =>
          match mkWITTypeDefChecked f.name f.ty with
          | .error e => .err e
          | .ok item => .ok { inner_iter := rest, item := Option.some item }
      | Ty.id _ => .err "Invalid parameter.  Must be record type!"
      | _ => .err "Iterator out of bounds!"

/-- `_wit_array_elem_typedef_get`: on a list type id, returns the cached
`subty1` without recomputation. -/
def _wit_array_elem_typedef_get (td : Option WITTypeDef) (resNull : Bool) :
    Outcome WITTypeDef :=
  match td with
  | Option.none => .err "Invalid argument"
  | Option.some td =>
    if resNull then .err "Invalid argument"
    else
      match td.ty with
      | Ty.id (TypeDefKind.list _) =>
        match td.subty1 with
        | Option.some subty => .ok subty
        | Option.none => .err "Could not determine array element type!"
      | _ => .err "Invalid parameter.  Must be list type!"

/-- `_wit_sig_length_get`. -/
def _wit_sig_length_get (sig : Option WITSignature) (part : WITSigPart)
    (resNull : Bool) : Outcome Nat :=
  match sig with
  | Option.none => .err "Invalid argument"
  | Option.some sig =>
    if resNull then .err "Invalid argument"
    else
      match part with
      | WITSigPart.Params => .ok sig.sig.params.length
      | WITSigPart.Results => .ok sig.sig.results.length

/-- `_wit_sig_type_get_by_index`: `v[idx]` is a raw vector index, which
panics when `idx` is out of range; there is no explicit range check. -/
def _wit_sig_type_get_by_index (sig : Option WITSignature) (part : WITSigPart)
    (idx : Nat) (resNull : Bool) : Outcome WASMType :=
  match sig with
  | Option.none => .err "Invalid argument"
  | Option.some sig =>
    if resNull then .err "Invalid argument"
    else
      let v := match part with
        | WITSigPart.Params => sig.sig.params
        | WITSigPart.Results => sig.sig.results
      if h : idx < v.length then .ok (wasmTypeFrom (v.get ⟨idx, h⟩))
      else .panic "index out of bounds"

/-- The `WITFunction` value that `mkWITFunction` produces when the name is
NUL-free (so `CString::new` succeeds and returns the name verbatim). -/
def mkWITFunctionVal (sigOf : Function → abi.WasmSignature) (iface : Interface)
    (i : Nat) (f : Function) : WITFunction :=
  { iface := iface
    name := f.name
    sig := { sig := sigOf f }
    index := i
    res := mkWITTypeDef "" f.result }

/-- The vector `_wit_sig_length_get` and `_wit_sig_type_get_by_index` select
for a given part. -/
def sigPartVec (sig : WITSignature) (part : WITSigPart) : List abi.WasmType :=
  match part with
  | WITSigPart.Params => sig.sig.params
  | WITSigPart.Results => sig.sig.results

/-- Whether a `TypeDefKind` is `Record`. -/
def TypeDefKind.isRecordKind : TypeDefKind → Bool
  | TypeDefKind.record _ => true
  | _ => false

/-- Whether a `Ty` is a `Type::Id` occurrence. -/
def Ty.isIdTy : Ty → Bool
  | Ty.id _ => true
  | _ => false

/-- The state of a parameter cursor that has performed `k` successful
`next` calls after `wit_func_param_walk` over parameter list `params`: the
inner iterator has consumed `k + 1` source elements and the current item is
the materialized element number `k` (none once past the end). -/
def iterState (params : List (String × Ty)) (k : Nat) : WITTypeDefIter :=
  { inner_iter := params.drop (k + 1)
    item := (params[k]?).map (fun p => mkWITTypeDef p.1 p.2) }

/-- `n` successive `wit_typedef_iter_next` calls, stopping at the first
non-`Ok` outcome. -/
def typedefIterNextN : Nat → Option WITTypeDefIter → Outcome Unit × Option WITTypeDefIter
  | 0, it => (Outcome.ok (), it)
  | Nat.succ n, it =>
    match _wit_typedef_iter_next it with
    | (Outcome.ok _, it') => typedefIterNextN n it'
    | other => other

/-- A trivial black-box ABI signature, for concrete test documents. -/
def sampleSigOf : Function → abi.WasmSignature :=
  fun _ => { params := [], results := [], indirect_params := false, retptr := false }

/-- A one-function interface, as the black-box parser would return it. -/
def iface1 : Interface :=
  { functions := [{ name := "f", params := [], result := Ty.unit }] }

/-- A black-box parser that accepts everything as `iface1`. -/
def parse1 : String → Except String Interface :=
  fun _ => .ok iface1

/-- The document `_wit_parse` builds from `iface1`. -/
def wC1 : WIT :=
  { iface := iface1
    funcs := [("f", mkWITFunctionVal sampleSigOf iface1 0
      { name := "f", params := [], result := Ty.unit })] }

/-- An interface in which two functions share the name `f`, as the black-box
parser would have to return it for a duplicate-name source text. -/
def iface5 : Interface :=
  { functions := [{ name := "f", params := [], result := Ty.unit },
                  { name := "f", params := [], result := Ty.u32 }] }

/-- A black-box parser that accepts everything as `iface5`. -/
def parse5 : String → Except String Interface :=
  fun _ => .ok iface5

/-- A fresh session with no pending error. -/
def sess0 : WITSession := { error := Option.none }

/-- A signature whose parts are all empty. -/
def sigEmpty : WITSignature :=
  { sig := { params := [], results := [], indirect_params := false, retptr := false } }

/-- A type descriptor for a plain `u32` occurrence (kind is not record). -/
def tdU32 : WITTypeDef := mkWITTypeDef "x" Ty.u32

/-- A signature with a single 32-bit integer parameter word. -/
def sigI32 : WITSignature :=
  { sig := { params := [abi.WasmType.I32], results := [],
             indirect_params := false, retptr := false } }

/-- A two-parameter function descriptor, for cursor tests. -/
def funcG : WITFunction :=
  { iface := { functions := [{ name := "g"
                               params := [("a", Ty.u32), ("b", Ty.bool)]
                               result := Ty.unit }] }
    name := "g"
    sig := sigEmpty
    index := 0
    res := mkWITTypeDef "" Ty.unit }

/-!  Theorems. -/

/-- C9: the subtype resolver caches exactly one nested descriptor for a list
(its element type), exactly two for an expected (ok then err), and zero for
every other type occurrence; resolution recurses, so the nested descriptors
carry their own construction-time subtypes, and the list-element accessor
returns exactly the cached descriptor. -/
theorem subtype_resolver_counts :
    (∀ ty : Ty,
      (subtypedef_get_maybe 1 ty, subtypedef_get_maybe 2 ty) =
        (match ty with
         | Ty.id (TypeDefKind.list e) => (Option.some (mkWITTypeDef "" e), Option.none)
         | Ty.id (TypeDefKind.expected o r) =>
           (Option.some (mkWITTypeDef "ok" o), Option.some (mkWITTypeDef "err" r))
         | _ => (Option.none, Option.none))) ∧
    (∀ (name : String) (e : Ty),
      _wit_array_elem_typedef_get
          (Option.some (mkWITTypeDef name (Ty.id (TypeDefKind.list e)))) false =
        Outcome.ok (mkWITTypeDef "" e)) := by
  constructor
  · intro ty
    cases ty with
    | id kind => cases kind <;> rfl
    | unit => rfl
    | bool => rfl
    | u8 => rfl
    | u16 => rfl
    | u32 => rfl
    | u64 => rfl
    | s8 => rfl
    | s16 => rfl
    | s32 => rfl
    | s64 => rfl
    | float32 => rfl
    | float64 => rfl
    | char => rfl
    | string => rfl
    | handle => rfl
  · intro name e
    rfl

/-- C10: a boundary failure whose message contains a NUL byte leaves the
session's error slot untouched (the `CString` build inside `error_set`
fails), while the operation still reports failure. -/
theorem nul_error_message_leaves_slot (cp : Bool) (sess : WITSession) (msg : String)
    (h : hasNul msg = true) :
    ffi_return cp (Option.some sess) (Outcome.err msg) =
      (Option.some sess, FFIBoundary.returns false) := by
  cases cp <;> simp [ffi_return, check, error_set, cstring_new, h]

/-- Witness for C10 at a concrete NUL-containing message. -/
theorem nul_error_message_leaves_slot_witness :
    ffi_return false (Option.some sess0) (Outcome.err (String.mk [Char.ofNat 0])) =
      (Option.some sess0, FFIBoundary.returns false) :=
  nul_error_message_leaves_slot false sess0 (String.mk [Char.ofNat 0]) (by decide)

/-- C7: when an operation fails, the caller-supplied output slot keeps its
previous value; it is written only on the success path (shown for the two
cited operations, `_wit_typedef_type_get` and `_wit_parse`). -/
theorem outputs_unwritten_on_failure :
    (∀ (td : Option WITTypeDef) (resNull : Bool) (slot : WITType),
      (_wit_typedef_type_get td resNull slot).1 ≠ Outcome.ok () →
      (_wit_typedef_type_get td resNull slot).2 = slot) ∧
    (∀ (parseFn : String → Except String Interface)
       (sigOf : Function → abi.WasmSignature)
       (content : Option String) (resNull : Bool) (slot : Option WIT),
      (_wit_parse parseFn sigOf content resNull slot).1 ≠ Outcome.ok () →
      (_wit_parse parseFn sigOf content resNull slot).2 = slot) := by
  constructor
  · intro td resNull slot h
    cases td with
    | none => rfl
    | some td =>
      cases resNull with
      | true => rfl
      | false =>
        by_cases hty : tyToWITType td.ty = WITType.Unknown
        · simp [_wit_typedef_type_get, hty]
        · exact absurd (by simp [_wit_typedef_type_get, hty]) h
  · intro parseFn sigOf content resNull slot h
    cases content with
    | none => rfl
    | some text =>
      cases resNull with
      | true => rfl
      | false =>
        cases hp : parseFn text with
        | error e => simp [_wit_parse, hp]
        | ok iface =>
          cases hb : buildFuncs sigOf iface 0 iface.functions [] with
          | error e => simp [_wit_parse, hp, hb]
          | ok funcs => exact absurd (by simp [_wit_parse, hp, hb]) h

/-- Witness for C7: a failing `_wit_typedef_type_get` (null descriptor) and a
failing `_wit_parse` (null content) leave their slots at the prior values. -/
theorem outputs_unwritten_on_failure_witness :
    (_wit_typedef_type_get Option.none false WITType.Unit).2 = WITType.Unit ∧
    (_wit_parse parse1 sampleSigOf Option.none false Option.none).2 = Option.none :=
  ⟨outputs_unwritten_on_failure.1 Option.none false WITType.Unit (by decide),
   outputs_unwritten_on_failure.2 parse1 sampleSigOf Option.none false Option.none (by
     intro h
     simp [_wit_parse] at h)⟩

/-- C2 counterexample: indexing an empty params part at index 0 does not
produce an OutOfRange session error: the raw vector index panics, and (under
the catch feature) the session receives the generic caught-panic message. -/
theorem sig_index_out_of_range_panics :
    _wit_sig_type_get_by_index (Option.some sigEmpty) WITSigPart.Params 0 false =
      Outcome.panic "index out of bounds" ∧
    ffi_return true (Option.some sess0)
        ((_wit_sig_type_get_by_index (Option.some sigEmpty) WITSigPart.Params 0 false).toUnit) =
      (Option.some { error := Option.some { c_msg := "Caught Rust panic: index out of bounds" } },
       FFIBoundary.returns false) := by
  constructor
  · rfl
  · simp [ffi_return, Outcome.toUnit, error_set, cstring_new,
      show hasNul "Caught Rust panic: index out of bounds" = false from by decide,
      show _wit_sig_type_get_by_index (Option.some sigEmpty) WITSigPart.Params 0 false =
        Outcome.panic "index out of bounds" from rfl]

/-- C2 (amended): `wit_sig_length_get` reports the length of the selected
part; for `idx` below it, `wit_sig_type_get_by_index` returns the word kind
at position `idx`; for `idx` at or above it, the raw vector index panics
(there is no OutOfRange check). -/
theorem sig_index_behaviour (sig : WITSignature) (part : WITSigPart) (idx : Nat) :
    _wit_sig_length_get (Option.some sig) part false =
      Outcome.ok (sigPartVec sig part).length ∧
    (∀ h : idx < (sigPartVec sig part).length,
      _wit_sig_type_get_by_index (Option.some sig) part idx false =
        Outcome.ok (wasmTypeFrom ((sigPartVec sig part).get ⟨idx, h⟩))) ∧
    ((sigPartVec sig part).length ≤ idx →
      _wit_sig_type_get_by_index (Option.some sig) part idx false =
        Outcome.panic "index out of bounds") := by
  refine ⟨?_, ?_, ?_⟩
  · cases part <;> rfl
  · intro h
    cases part <;>
      simp only [_wit_sig_type_get_by_index, sigPartVec] at h ⊢ <;>
      rw [dif_pos h] <;> rfl
  · intro h
    cases part <;>
      simp only [_wit_sig_type_get_by_index, sigPartVec] at h ⊢ <;>
      rw [dif_neg (by omega)] <;> rfl

/-- Witness for C2 (amended) on a one-word params part. -/
theorem sig_index_behaviour_witness :
    _wit_sig_type_get_by_index (Option.some sigI32) WITSigPart.Params 0 false =
      Outcome.ok WASMType.I32 ∧
    _wit_sig_type_get_by_index (Option.some sigI32) WITSigPart.Params 1 false =
      Outcome.panic "index out of bounds" :=
  ⟨(sig_index_behaviour sigI32 WITSigPart.Params 0).2.1 (by decide),
   (sig_index_behaviour sigI32 WITSigPart.Params 1).2.2 (by decide)⟩

/-- C3 counterexample: without the `catch_panics` feature, the out-of-range
function index panics inside `_wit_func_get_by_index` and the panic unwinds
across the FFI boundary instead of being converted to an error. -/
theorem panic_escapes_without_catch_feature :
    ffi_return false (Option.some sess0)
        ((_wit_func_get_by_index (Option.some wC1) 1 false).toUnit) =
      (Option.some sess0, FFIBoundary.unwinds "index out of bounds") := by
  rfl

/-- C3 (amended): only when the crate is built with the `catch_panics`
feature and the session is non-null is every internal outcome converted to a
boolean return; a panic then becomes `false` with the caught-panic message
passed to `error_set`. -/
theorem panics_converted_with_catch_feature (s : WITSession) (r : Outcome Unit) :
    (∃ b : Bool, (ffi_return true (Option.some s) r).2 = FFIBoundary.returns b) ∧
    (∀ m : String, r = Outcome.panic m →
      ffi_return true (Option.some s) r =
        (Option.some (error_set s ("Caught Rust panic: " ++ m)).1,
         FFIBoundary.returns false)) := by
  constructor
  · cases r with
    | ok v => exact ⟨true, rfl⟩
    | err m => exact ⟨false, rfl⟩
    | panic m => exact ⟨false, rfl⟩
  · intro m hm
    subst hm
    rfl

/-- Witness for C3 (amended) at a concrete panic. -/
theorem panics_converted_with_catch_feature_witness :
    ffi_return true (Option.some sess0) (Outcome.panic "boom") =
      (Option.some { error := Option.some { c_msg := "Caught Rust panic: boom" } },
       FFIBoundary.returns false) := by
  have h := (panics_converted_with_catch_feature sess0 (Outcome.panic "boom")).2 "boom" rfl
  simpa [error_set, cstring_new,
    show hasNul "Caught Rust panic: boom" = false from by decide] using h

/-- C4 counterexample: a failure sets the slot, and a following successful
operation (`wit_func_count_get` on a valid document) returns true yet leaves
the old message still retrievable — success does not clear the slot. -/
theorem success_does_not_clear_error :
    (ffi_return false
        (ffi_return false (Option.some sess0) (_wit_typedef_iter_next Option.none).1).1
        ((_wit_func_count_get (Option.some wC1) false).toUnit)).2 =
      FFIBoundary.returns true ∧
    wit_error_get
        (ffi_return false
          (ffi_return false (Option.some sess0) (_wit_typedef_iter_next Option.none).1).1
          ((_wit_func_count_get (Option.some wC1) false).toUnit)).1 =
      Option.some "Invalid argument" := by
  constructor <;> rfl

/-- C4 (amended): the slot holds at most one message — each failure with a
non-null session and a NUL-free message replaces it with exactly that
message; a successful operation returns true and leaves the session
unchanged (it does not clear the slot); clearing happens through the
explicit `wit_error_clear`. -/
theorem error_slot_discipline :
    (∀ (cp : Bool) (sess : WITSession) (msg : String), hasNul msg = false →
      ffi_return cp (Option.some sess) (Outcome.err msg) =
        (Option.some { error := Option.some { c_msg := msg } },
         FFIBoundary.returns false)) ∧
    (∀ (cp : Bool) (s : Option WITSession),
      ffi_return cp s (Outcome.ok ()) = (s, FFIBoundary.returns true)) ∧
    (∀ sess : WITSession,
      wit_error_clear (Option.some sess) = Option.some { error := Option.none }) := by
  refine ⟨?_, ?_, ?_⟩
  · intro cp sess msg h
    cases cp <;> simp [ffi_return, check, error_set, cstring_new, h]
  · intro cp s
    cases cp <;> rfl
  · intro sess
    rfl

/-- Witness for C4 (amended) at a concrete message. -/
theorem error_slot_discipline_witness :
    ffi_return false (Option.some sess0) (Outcome.err "boom") =
      (Option.some { error := Option.some { c_msg := "boom" } },
       FFIBoundary.returns false) :=
  error_slot_discipline.1 false sess0 "boom" (by decide)

/-- C5 counterexample: on a parser output with two functions both named `f`,
`wit_parse` succeeds (it does not fail), and the name map holds only the
descriptor of the second function — the first was silently overwritten. -/
theorem parse_accepts_duplicate_names :
    (_wit_parse parse5 sampleSigOf (Option.some "") false Option.none).1 =
      Outcome.ok () ∧
    (_wit_parse parse5 sampleSigOf (Option.some "") false Option.none).2 =
      Option.some
        { iface := iface5,
          funcs := [("f", mkWITFunctionVal sampleSigOf iface5 1
            { name := "f", params := [], result := Ty.u32 })] } := by
  constructor <;> rfl

/-- C5 (amended): `wit_parse` performs no duplicate-name check: whenever the
external parser returns two functions sharing a (NUL-free) name, parsing
succeeds and the map binds that name to the descriptor of the later
function, the earlier descriptor having been silently overwritten by the
`HashMap::insert`. -/
theorem parse_overwrites_duplicate_names (parseFn : String → Except String Interface)
    (sigOf : Function → abi.WasmSignature) (text : String) (slot : Option WIT)
    (iface : Interface) (n : String) (p1 p2 : List (String × Ty)) (r1 r2 : Ty)
    (hp : parseFn text = .ok iface)
    (hfns : iface.functions = [{ name := n, params := p1, result := r1 },
                               { name := n, params := p2, result := r2 }])
    (hn : hasNul n = false) :
    _wit_parse parseFn sigOf (Option.some text) false slot =
      (Outcome.ok (), Option.some
        { iface := iface,
          funcs := [(n, mkWITFunctionVal sigOf iface 1
            { name := n, params := p2, result := r2 })] }) := by
  simp [_wit_parse, hp, hfns, buildFuncs, mkWITFunction, cstring_new, hn,
    hashInsert, mkWITFunctionVal]

/-- Witness for C5 (amended) at the concrete duplicate-name interface. -/
theorem parse_overwrites_duplicate_names_witness :
    _wit_parse parse5 sampleSigOf (Option.some "") false Option.none =
      (Outcome.ok (), Option.some
        { iface := iface5,
          funcs := [("f", mkWITFunctionVal sampleSigOf iface5 1
            { name := "f", params := [], result := Ty.u32 })] }) :=
  parse_overwrites_duplicate_names parse5 sampleSigOf "" Option.none iface5
    "f" [] [] Ty.unit Ty.u32 rfl rfl (by decide)

/-- C8 counterexample: on a descriptor whose kind is `u32` (not record),
`wit_record_field_walk` fails — but with the message "Iterator out of
bounds!", not the type-mismatch message used for non-record type ids. -/
theorem record_walk_on_primitive_message :
    _wit_typedef_type_get (Option.some tdU32) false WITType.Unit =
      (Outcome.ok (), WITType.U32) ∧
    _wit_record_field_walk (Option.some tdU32) false =
      Outcome.err "Iterator out of bounds!" ∧
    "Iterator out of bounds!" ≠ "Invalid parameter.  Must be record type!" := by
  refine ⟨rfl, rfl, by decide⟩

/-- C8 (amended): `wit_record_field_walk` succeeds exactly on record kinds;
a type id of any non-record kind (e.g. a list) fails with the type-mismatch
message, which is retrievable from the session, while a type that is not a
type id at all fails with the message "Iterator out of bounds!". -/
theorem record_walk_kind_dispatch :
    (∀ (name : String) (fields : List Field),
      (∀ f ∈ fields, hasNul (Field.name f) = false) →
      ∃ it : WITFieldIter,
        _wit_record_field_walk
            (Option.some (mkWITTypeDef name (Ty.id (TypeDefKind.record fields)))) false =
          Outcome.ok it) ∧
    (∀ (td : WITTypeDef) (k : TypeDefKind),
      td.ty = Ty.id k → TypeDefKind.isRecordKind k = false →
      _wit_record_field_walk (Option.some td) false =
        Outcome.err "Invalid parameter.  Must be record type!") ∧
    (∀ td : WITTypeDef, Ty.isIdTy td.ty = false →
      _wit_record_field_walk (Option.some td) false =
        Outcome.err "Iterator out of bounds!") ∧
    (∀ (cp : Bool) (sess : WITSession) (name : String) (e : Ty),
      ffi_return cp (Option.some sess)
          ((_wit_record_field_walk
            (Option.some (mkWITTypeDef name (Ty.id (TypeDefKind.list e)))) false).toUnit) =
        (Option.some
           { error := Option.some
               { c_msg := "Invalid parameter.  Must be record type!" } },
         FFIBoundary.returns false) ∧
      wit_error_get (ffi_return cp (Option.some sess)
          ((_wit_record_field_walk
            (Option.some (mkWITTypeDef name (Ty.id (TypeDefKind.list e)))) false).toUnit)).1 =
        Option.some "Invalid parameter.  Must be record type!") := by
  refine ⟨?_, ?_, ?_, ?_⟩
  · intro name fields h
    cases fields with
    | nil => exact ⟨{ inner_iter := [], item := Option.none }, rfl⟩
    | cons f rest =>
      have hf : hasNul f.name = false := h f (by simp)
      refine ⟨{ inner_iter := rest, item := Option.some (mkWITTypeDef f.name f.ty) }, ?_⟩
      simp [_wit_record_field_walk, mkWITTypeDef, mkWITTypeDefChecked, cstring_new, hf,
        WITTypeDef.ty]
  · intro td k hty hk
    simp only [_wit_record_field_walk, hty]
    cases k <;> simp [TypeDefKind.isRecordKind] at hk ⊢
  · intro td h
    simp only [_wit_record_field_walk]
    cases hty : td.ty <;> simp [Ty.isIdTy, hty] at h ⊢
  · intro cp sess name e
    have hw : _wit_record_field_walk
        (Option.some (mkWITTypeDef name (Ty.id (TypeDefKind.list e)))) false =
        Outcome.err "Invalid parameter.  Must be record type!" := rfl
    have hmsg : hasNul "Invalid parameter.  Must be record type!" = false := by decide
    cases cp <;>
      simp [ffi_return, check, error_set, cstring_new, hw, Outcome.toUnit, hmsg,
        wit_error_get]

/-- Witness for C8 (amended): the list case takes the type-mismatch branch
and a primitive takes the out-of-bounds branch. -/
theorem record_walk_kind_dispatch_witness :
    _wit_record_field_walk
        (Option.some (mkWITTypeDef "p" (Ty.id (TypeDefKind.list Ty.u32)))) false =
      Outcome.err "Invalid parameter.  Must be record type!" ∧
    _wit_record_field_walk (Option.some tdU32) false =
      Outcome.err "Iterator out of bounds!" :=
  ⟨record_walk_kind_dispatch.2.1 (mkWITTypeDef "p" (Ty.id (TypeDefKind.list Ty.u32)))
      (TypeDefKind.list Ty.u32) rfl rfl,
   record_walk_kind_dispatch.2.2.1 tdU32 rfl⟩

/-- A successful `CString::new` returns the string unchanged. -/
theorem cstring_new_ok_eq (s nm : String) (h : cstring_new s = .ok nm) : nm = s := by
  by_cases hn : hasNul s
  · simp [cstring_new, hn] at h
  · simp [cstring_new, hn] at h
    exact h.symm

/-- `HashMap::insert` followed by `get`: the inserted key maps to the new
value, other keys are untouched. -/
theorem hashGet_hashInsert (m : List (String × WITFunction)) (k q : String)
    (v : WITFunction) :
    hashGet (hashInsert m k v) q = if k = q then Option.some v else hashGet m q := by
  induction m with
  | nil => simp [hashInsert, hashGet]
  | cons a rest ih =>
    obtain ⟨ak, av⟩ := a
    by_cases hak : ak = k <;> by_cases hq : k = q <;>
      simp_all [hashInsert, hashGet, ih]

/-- `mkWITFunction` on a NUL-free name succeeds with the plain value. -/
theorem mkWITFunction_eq_ok (sigOf : Function → abi.WasmSignature) (iface : Interface)
    (i : Nat) (f : Function) (h : hasNul f.name = false) :
    mkWITFunction sigOf iface i f = .ok (mkWITFunctionVal sigOf iface i f) := by
  simp [mkWITFunction, cstring_new, h, mkWITFunctionVal]

/-- The `_wit_parse` loop leaves bindings of keys that name none of the
remaining functions unchanged. -/
theorem buildFuncs_get_of_not_mem (sigOf : Function → abi.WasmSignature)
    (iface : Interface) :
    ∀ (fs : List Function) (i : Nat) (m m' : List (String × WITFunction)) (k : String),
      buildFuncs sigOf iface i fs m = .ok m' → (∀ f ∈ fs, f.name ≠ k) →
      hashGet m' k = hashGet m k := by
  intro fs
  induction fs with
  | nil =>
    intro i m m' k h hk
    simp only [buildFuncs] at h
    cases h
    rfl
  | cons f rest ih =>
    intro i m m' k h hk
    simp only [buildFuncs] at h
    cases hm : mkWITFunction sigOf iface i f with
    | error e => rw [hm] at h; cases h
    | ok wf =>
      rw [hm] at h
      have h2 := ih (i + 1) (hashInsert m f.name wf) m' k h
        (fun g hg => hk g (List.mem_cons_of_mem _ hg))
      rw [h2, hashGet_hashInsert]
      have hne : f.name ≠ k := hk f (List.mem_cons_self _ _)
      simp [hne]

/-- The `_wit_parse` loop, under distinct function names, binds function
number `j` of the processed list to the descriptor built with index
`i + j`. -/
theorem buildFuncs_get_of_nodup (sigOf : Function → abi.WasmSignature)
    (iface : Interface) :
    ∀ (fs : List Function) (i : Nat) (m m' : List (String × WITFunction)),
      buildFuncs sigOf iface i fs m = .ok m' → (fs.map Function.name).Nodup →
      ∀ (j : Nat) (hj : j < fs.length),
        hashGet m' (fs.get ⟨j, hj⟩).name =
          Option.some (mkWITFunctionVal sigOf iface (i + j) (fs.get ⟨j, hj⟩)) := by
  intro fs
  induction fs with
  | nil =>
    intro i m m' h hnd j hj
    exact absurd hj (by simp)
  | cons f rest ih =>
    intro i m m' h hnd j hj
    simp only [buildFuncs] at h
    cases hm : mkWITFunction sigOf iface i f with
    | error e => rw [hm] at h; cases h
    | ok wf =>
      rw [hm] at h
      have hwf : wf = mkWITFunctionVal sigOf iface i f := by
        simp only [mkWITFunction] at hm
        cases hc : cstring_new f.name with
        | error u => rw [hc] at hm; cases hm
        | ok nm =>
          rw [hc] at hm
          cases hm
          rw [cstring_new_ok_eq f.name nm hc]
          rfl
      cases j with
      | zero =>
        have hnot : ∀ g ∈ rest, g.name ≠ f.name := by
          intro g hg he
          have hhead := (List.nodup_cons.mp hnd).1
          exact hhead (he ▸ List.mem_map_of_mem Function.name hg)
        have hrest := buildFuncs_get_of_not_mem sigOf iface rest (i + 1)
          (hashInsert m f.name wf) m' f.name h hnot
        simp only [List.get]
        rw [hrest, hashGet_hashInsert]
        simp [hwf]
      | succ j' =>
        have hj' : j' < rest.length := by
          simp at hj
          omega
        have := ih (i + 1) (hashInsert m f.name wf) m' h
          (List.nodup_cons.mp hnd).2 j' hj'
        simpa [List.get, Nat.add_comm, Nat.add_assoc, Nat.add_left_comm] using this

/-- C1 counterexample: on a parsed one-function document, index 1 is out of
range and `_wit_func_get_by_index` panics on the raw vector index instead of
reporting NotFound through the session; under the catch feature the session
receives the generic caught-panic message. -/
theorem func_get_by_index_out_of_range_panics :
    _wit_func_get_by_index (Option.some wC1) 1 false =
      Outcome.panic "index out of bounds" ∧
    ffi_return true (Option.some sess0)
        ((_wit_func_get_by_index (Option.some wC1) 1 false).toUnit) =
      (Option.some { error := Option.some { c_msg := "Caught Rust panic: index out of bounds" } },
       FFIBoundary.returns false) := by
  constructor
  · rfl
  · simp [ffi_return, Outcome.toUnit, error_set, cstring_new,
      show hasNul "Caught Rust panic: index out of bounds" = false from by decide,
      show _wit_func_get_by_index (Option.some wC1) 1 false =
        Outcome.panic "index out of bounds" from rfl]

/-- C1 (amended): on a parsed document with distinct function names, an
in-range index returns the descriptor of the i-th parsed function, while an
out-of-range index panics on the raw vector index (no NotFound session
error). -/
theorem func_get_by_index_behaviour (parseFn : String → Except String Interface)
    (sigOf : Function → abi.WasmSignature) (text : String) (slot : Option WIT)
    (w : WIT)
    (hparse : _wit_parse parseFn sigOf (Option.some text) false slot =
      (Outcome.ok (), Option.some w))
    (hnd : (w.iface.functions.map Function.name).Nodup) :
    (∀ (i : Nat) (hi : i < w.iface.functions.length),
      _wit_func_get_by_index (Option.some w) i false =
        Outcome.ok (mkWITFunctionVal sigOf w.iface i (w.iface.functions.get ⟨i, hi⟩))) ∧
    (∀ i : Nat, w.iface.functions.length ≤ i →
      _wit_func_get_by_index (Option.some w) i false =
        Outcome.panic "index out of bounds") := by
  have hbuild : buildFuncs sigOf w.iface 0 w.iface.functions [] = .ok w.funcs := by
    simp only [_wit_parse] at hparse
    cases hp : parseFn text with
    | error e => simp [hp] at hparse
    | ok iface =>
      cases hb : buildFuncs sigOf iface 0 iface.functions [] with
      | error e => simp [hp, hb] at hparse
      | ok funcs =>
        simp only [hp, hb] at hparse
        have hw : ({ iface := iface, funcs := funcs } : WIT) = w := by
          have := congrArg Prod.snd hparse
          simpa using this
        rw [← hw]
        exact hb
  constructor
  · intro i hi
    simp only [_wit_func_get_by_index]
    rw [dif_pos hi]
    have hlook := buildFuncs_get_of_nodup sigOf w.iface w.iface.functions 0 []
      w.funcs hbuild hnd i hi
    rw [Nat.zero_add] at hlook
    simp only [hlook]
    rfl
  · intro i hi
    simp only [_wit_func_get_by_index]
    rw [dif_neg (by omega)]
    rfl

/-- Witness for C1 (amended) on the parsed one-function document. -/
theorem func_get_by_index_behaviour_witness :
    _wit_func_get_by_index (Option.some wC1) 0 false =
      Outcome.ok (mkWITFunctionVal sampleSigOf iface1 0
        { name := "f", params := [], result := Ty.unit }) ∧
    _wit_func_get_by_index (Option.some wC1) 5 false =
      Outcome.panic "index out of bounds" := by
  have h := func_get_by_index_behaviour parse1 sampleSigOf "" Option.none wC1
    (by rfl) (by decide)
  exact ⟨h.1 0 (by decide), h.2 5 (by decide)⟩

/-- `mkWITTypeDefChecked` on a NUL-free name succeeds with the plain
construction. -/
theorem mkWITTypeDefChecked_ok (name : String) (ty : Ty) (h : hasNul name = false) :
    mkWITTypeDefChecked name ty = .ok (mkWITTypeDef name ty) := by
  simp [mkWITTypeDefChecked, cstring_new, h]

/-- `next` on a positioned cursor with a non-empty remainder: materializes
the next element (NUL-free name). -/
theorem typedef_iter_next_cons (n : String × Ty) (rest : List (String × Ty))
    (item : WITTypeDef) (hn : hasNul n.1 = false) :
    _wit_typedef_iter_next
        (Option.some { inner_iter := n :: rest, item := Option.some item }) =
      (Outcome.ok (),
       Option.some { inner_iter := rest, item := Option.some (mkWITTypeDef n.1 n.2) }) := by
  have hsub := mkWITTypeDefChecked_ok n.1 n.2 hn
  simp [_wit_typedef_iter_next, wit_typedef_iter_off, hsub]

/-- `next` on a positioned cursor with an empty remainder: transitions to
the exhausted state. -/
theorem typedef_iter_next_last (item : WITTypeDef) :
    _wit_typedef_iter_next
        (Option.some { inner_iter := [], item := Option.some item }) =
      (Outcome.ok (), Option.some { inner_iter := [], item := Option.none }) := rfl

/-- `next` on an exhausted cursor fails with the out-of-bounds message and
leaves the cursor unchanged. -/
theorem typedef_iter_next_exhausted (l : List (String × Ty)) :
    _wit_typedef_iter_next (Option.some { inner_iter := l, item := Option.none }) =
      (Outcome.err "Iterator out of bounds!",
       Option.some { inner_iter := l, item := Option.none }) := rfl

/-- A mid-sequence `next` call advances the cursor by one position. -/
theorem typedef_iter_next_mid (params : List (String × Ty))
    (hNul : ∀ p ∈ params, hasNul p.1 = false) (k : Nat) (hk : k < params.length) :
    _wit_typedef_iter_next (Option.some (iterState params k)) =
      (Outcome.ok (), Option.some (iterState params (k + 1))) := by
  by_cases hk1 : k + 1 < params.length
  · have hitem : iterState params k =
        { inner_iter := params[k + 1] :: params.drop (k + 1 + 1),
          item := Option.some (mkWITTypeDef (params.get ⟨k, hk⟩).1 (params.get ⟨k, hk⟩).2) } := by
      unfold iterState
      rw [List.getElem?_eq_getElem hk, List.drop_eq_getElem_cons hk1]
      rfl
    rw [hitem, typedef_iter_next_cons _ _ _ (hNul _ (List.getElem_mem hk1))]
    have hnext : iterState params (k + 1) =
        { inner_iter := params.drop (k + 1 + 1),
          item := Option.some (mkWITTypeDef (params[k + 1]).1 (params[k + 1]).2) } := by
      unfold iterState
      rw [List.getElem?_eq_getElem hk1]
      rfl
    rw [hnext]
  · have hitem : iterState params k =
        { inner_iter := [],
          item := Option.some (mkWITTypeDef (params.get ⟨k, hk⟩).1 (params.get ⟨k, hk⟩).2) } := by
      unfold iterState
      rw [List.getElem?_eq_getElem hk,
        List.drop_eq_nil_of_le (show params.length ≤ k + 1 by omega)]
      rfl
    rw [hitem, typedef_iter_next_last]
    have hnext : iterState params (k + 1) =
        { inner_iter := [], item := Option.none } := by
      unfold iterState
      rw [List.getElem?_eq_none (show params.length ≤ k + 1 by omega),
        List.drop_eq_nil_of_le (show params.length ≤ k + 1 + 1 by omega)]
      rfl
    rw [hnext]

/-- A `next` call on an exhausted cursor fails with the out-of-bounds
message and leaves the cursor unchanged. -/
theorem typedef_iter_next_off_end (params : List (String × Ty)) (k : Nat)
    (hk : params.length ≤ k) :
    _wit_typedef_iter_next (Option.some (iterState params k)) =
      (Outcome.err "Iterator out of bounds!", Option.some (iterState params k)) := by
  have hitem : iterState params k =
      { inner_iter := params.drop (k + 1), item := Option.none } := by
    unfold iterState
    rw [List.getElem?_eq_none hk]
    rfl
  rw [hitem]
  exact typedef_iter_next_exhausted _

/-- Chaining successful `next` calls: `a + k` steps decompose as `a`
successful steps followed by `k` more. -/
theorem typedefIterNextN_append (j k : Nat) (s s' : Option WITTypeDefIter)
    (h : typedefIterNextN j s = (Outcome.ok (), s')) :
    typedefIterNextN (j + k) s = typedefIterNextN k s' := by
  induction j generalizing s with
  | zero =>
    simp only [typedefIterNextN] at h
    cases h
    simp [Nat.zero_add]
  | succ j ih =>
    rw [Nat.succ_add]
    simp only [typedefIterNextN] at h ⊢
    cases hn : _wit_typedef_iter_next s with
    | mk r it =>
      rw [hn] at h
      cases r with
      | ok v => exact ih it h
      | err m => simp at h
      | panic m => simp at h

/-- In range (NUL-free names), `k` successive `next` calls all succeed and
move the cursor to position `a + k`. -/
theorem typedefIterNextN_ok (params : List (String × Ty))
    (hNul : ∀ p ∈ params, hasNul p.1 = false) :
    ∀ (k a : Nat), a + k ≤ params.length →
      typedefIterNextN k (Option.some (iterState params a)) =
        (Outcome.ok (), Option.some (iterState params (a + k))) := by
  intro k
  induction k with
  | zero =>
    intro a h
    simp [typedefIterNextN]
  | succ k ih =>
    intro a h
    have ha : a < params.length := by omega
    simp only [typedefIterNextN, typedef_iter_next_mid params hNul a ha]
    have := ih (a + 1) (by omega)
    rw [show a + 1 + k = a + (k + 1) by omega] at this
    exact this

/-- C6: a parameter cursor starts at the first parameter (exhausted when the
list is empty), exactly K `next` calls succeed before `iter_off` turns true,
and the (K+1)-th `next` fails with the out-of-bounds error. -/
theorem param_cursor_exhaustion (func : WITFunction) (f : Function)
    (hf : func.iface.functions[func.index]? = Option.some f)
    (hNul : ∀ p ∈ f.params, hasNul p.1 = false) :
    _wit_func_param_walk (Option.some func) false =
      Outcome.ok (iterState f.params 0) ∧
    (∀ k, k ≤ f.params.length →
      typedefIterNextN k (Option.some (iterState f.params 0)) =
        (Outcome.ok (), Option.some (iterState f.params k))) ∧
    (∀ k, k < f.params.length →
      wit_typedef_iter_off (Option.some (iterState f.params k)) = false) ∧
    wit_typedef_iter_off (Option.some (iterState f.params f.params.length)) = true ∧
    typedefIterNextN (f.params.length + 1) (Option.some (iterState f.params 0)) =
      (Outcome.err "Iterator out of bounds!",
       Option.some (iterState f.params f.params.length)) := by
  obtain ⟨hlt, hget⟩ := List.getElem?_eq_some.mp hf
  refine ⟨?_, ?_, ?_, ?_, ?_⟩
  · simp only [_wit_func_param_walk]
    rw [dif_pos hlt]
    rw [show func.iface.functions.get ⟨func.index, hlt⟩ = f from hget]
    cases hp : f.params with
    | nil => simp [iterState, hp]
    | cons p rest =>
      have hpmem : p ∈ f.params := by rw [hp]; exact List.mem_cons_self _ _
      have hsub := mkWITTypeDefChecked_ok p.1 p.2 (hNul _ hpmem)
      simp [iterState, hp, hsub]
  · intro k hk
    have := typedefIterNextN_ok f.params hNul k 0 (by omega)
    simpa using this
  · intro k hk
    simp [wit_typedef_iter_off, iterState, List.getElem?_eq_getElem hk]
  · simp [wit_typedef_iter_off, iterState,
      List.getElem?_eq_none (Nat.le_refl f.params.length)]
  · have h1 := typedefIterNextN_ok f.params hNul f.params.length 0 (by omega)
    rw [Nat.zero_add] at h1
    rw [typedefIterNextN_append f.params.length 1 _ _ h1]
    simp only [typedefIterNextN,
      typedef_iter_next_off_end f.params f.params.length (Nat.le_refl _)]

/-- Witness for C6 on a concrete two-parameter function. -/
theorem param_cursor_exhaustion_witness :
    _wit_func_param_walk (Option.some funcG) false =
      Outcome.ok (iterState [("a", Ty.u32), ("b", Ty.bool)] 0) ∧
    typedefIterNextN 3 (Option.some (iterState [("a", Ty.u32), ("b", Ty.bool)] 0)) =
      (Outcome.err "Iterator out of bounds!",
       Option.some (iterState [("a", Ty.u32), ("b", Ty.bool)] 2)) := by
  have h := param_cursor_exhaustion funcG
    { name := "g", params := [("a", Ty.u32), ("b", Ty.bool)], result := Ty.unit }
    rfl (by decide)
  exact ⟨h.1, h.2.2.2.2⟩

end ToWit
